import Mathlib

/-!
Shallow embedding of the 99backend services.

Gateway (`public_api.py`):
* `getListings` embeds `PublicListingsHandler.get`: it takes the outcome of
  the primary listings fetch and a function giving the outcome of each
  per-user lookup, and returns the HTTP response together with the list of
  user ids actually fanned out (one `http_client.fetch` task per element).
* `createListing` embeds `PublicListingsHandler.post`, `createUser` embeds
  `PublicUsersHandler.post`; `createUser` additionally reports whether the
  user backend was contacted.

User service (`user_service.py`):
* `usersGet` embeds `UsersHandler.get` (the SQL
  `SELECT * FROM users ORDER BY created_at DESC LIMIT ? OFFSET ?` is modelled
  by a stable insertion sort on `created_at` descending followed by
  drop/take with the SQLite clamping of negative OFFSET/LIMIT).
* `usersPost` embeds `UsersHandler.post`, `userGetById` embeds
  `UserHandler.get`; `runOps` folds a sequence of create operations over the
  initially empty database.

HTTP outcomes: `FetchResult.success` is a 2xx response with its parsed body,
`FetchResult.httpError` is a raised `tornado.httpclient.HTTPClientError`
(status code, optional response body, message), `FetchResult.exc` is any
other exception (e.g. a transport fault that does not surface as an
`HTTPClientError`). Error envelopes `{"result": false, "errors": [reason]}`
written by `write_error` are modelled by the `err` constructors carrying the
status code and the `errors` list.
-/

/-- A user object as parsed from a user-backend response body: the gateway
reads its `id` field and otherwise treats it opaquely (`name` stands for the
remaining payload). -/
structure UserRecord where
  id : Int
  name : String
  deriving DecidableEq, Repr

/-- A listing as returned by the listing backend: its `user_id` field plus
all remaining fields bundled as `rest`. -/
structure ListingIn (α : Type) where
  user_id : Int
  rest : α
  deriving DecidableEq, Repr

/-- An enriched listing as written by the gateway: the `user_id` key has been
deleted and a `user` key added; `rest` holds the untouched remaining fields. -/
structure ListingOut (α : Type) where
  user : Option UserRecord
  rest : α
  deriving DecidableEq, Repr

/-- Outcome of one `http_client.fetch`: a 2xx response with parsed body `β`,
a raised `HTTPClientError` (code, optional response body, message), or any
other exception. -/
inductive FetchResult (β : Type) where
  | success (body : β)
  | httpError (code : Nat) (respBody : Option String) (message : String)
  | exc
  deriving DecidableEq, Repr

/-- Outcome of one per-user lookup `GET /users/{id}`: on 2xx the body is
`json.loads(res.body).get("user")`, with `none` standing for an absent or
falsy `user` field. -/
abbrev LookupResult := FetchResult (Option UserRecord)

/-- A per-user lookup failed in the sense of `public_api.py` lines 69-74:
the gathered result is an `HTTPClientError` or some other exception. -/
def lookupFailed : LookupResult → Bool
  | .success _ => false
  | _ => true

/-- Response of `GET /public-api/listings`: `ok` is
`{"result": true, "listings": ...}` with status 200, `err` is the
`write_error` envelope. -/
inductive GResponse (α : Type) where
  | ok (listings : List (ListingOut α))
  | err (status : Nat) (errors : List String)
  deriving DecidableEq, Repr

/-- The distinct user ids of a listings page:
`user_ids = {l["user_id"] for l in listings}` (a set, so duplicates
collapse; the model fixes one enumeration order of that set). -/
def pageIds {α : Type} (L : List (ListingIn α)) : List Int :=
  (L.map (fun l => l.user_id)).dedup

/-- One iteration of the merge loop (`public_api.py` lines 68-78): a failed
lookup is skipped, a 2xx body whose `user` field is falsy is skipped, and a
truthy `user` body is stored under its own `id` field
(`users_map[user_data["id"]] = user_data`). Insertion in front plus
first-match lookup reproduces dict overwrite semantics. -/
def insertRes (res : LookupResult) (m : List (Int × UserRecord)) :
    List (Int × UserRecord) :=
  match res with
  | .success (some u) => (u.id, u) :: m
  | _ => m

/-- The merge loop over the gathered responses, in fan-out order. -/
def buildMapAux (m : List (Int × UserRecord)) :
    List Int → (Int → LookupResult) → List (Int × UserRecord)
  | [], _ => m
  | uid :: rest, lookup => buildMapAux (insertRes (lookup uid) m) rest lookup

/-- `users_map.get(key)`. -/
def mapGet (m : List (Int × UserRecord)) (k : Int) : Option UserRecord :=
  (m.find? (fun p => p.1 == k)).map (fun p => p.2)

/-- Embedding of `PublicListingsHandler.get` after the query string has been
built: `primary` is the outcome of the listings fetch (on success the parsed
body yields `data.get("listings", [])`, with `none` for a body without a
`listings` key), `lookup` gives the settled outcome of the lookup for each
user id. Returns the HTTP response and the list of user ids fetched during
the fan-out (empty when no `http_client.fetch` to the user backend is
issued). -/
def getListings {α : Type} (primary : FetchResult (Option (List (ListingIn α))))
    (lookup : Int → LookupResult) : GResponse α × List Int :=
  match primary with
  | .success data =>
      let listings := data.getD []
      if listings.isEmpty then (.ok [], [])
      else
        let user_ids := pageIds listings
        let users_map := buildMapAux [] user_ids lookup
        (.ok (listings.map (fun l => ⟨mapGet users_map l.user_id, l.rest⟩)),
         user_ids)
  | .httpError code respBody message =>
      (.err code ["Upstream service error: " ++ respBody.getD message], [])
  | .exc => (.err 500 ["An internal server error occurred."], [])

/-- The last truthy `user` body among the lookups of `ids` (in fan-out
order) whose `id` field equals `k`. This is what `users_map.get(k)` resolves
to after the merge loop. -/
def findLastBody : List Int → (Int → LookupResult) → Int → Option UserRecord
  | [], _, _ => none
  | uid :: rest, lookup, k =>
    match findLastBody rest lookup k with
    | some u => some u
    | none =>
      match lookup uid with
      | .success (some u) => if u.id == k then some u else none
      | _ => none

/-- Response of a passthrough handler: `relay` forwards the backend status
code and parsed body verbatim, `err` is the local `write_error` envelope. -/
inductive ProxyResp (γ : Type) where
  | relay (status : Nat) (body : γ)
  | err (status : Nat) (errors : List String)
  deriving DecidableEq, Repr

/-- Embedding of `PublicListingsHandler.post`: `parse` is the result of
`json.loads(self.request.body)` (the decoded form body `φ`), `backend` the
outcome of the forwarded POST, whose success carries the backend status code
and parsed body. -/
def createListing {φ γ : Type} (parse : Except Unit φ)
    (backend : φ → FetchResult (Nat × γ)) : ProxyResp γ :=
  match parse with
  | .error _ => .err 400 ["Invalid JSON format."]
  | .ok body =>
    match backend body with
    | .success (code, b) => .relay code b
    | .httpError code respBody message =>
        .err code ["Listing service error: " ++ respBody.getD message]
    | .exc => .err 500 ["An internal server error occurred."]

/-- Embedding of `PublicUsersHandler.post`: `parse` is the decoded JSON body
reduced to `body.get("name")` (`none` for a missing or falsy value, and the
empty string is falsy too); the second component of the result records
whether the user backend was contacted. -/
def createUser {γ : Type} (parse : Except Unit (Option String))
    (backend : String → FetchResult (Nat × γ)) : ProxyResp γ × Bool :=
  match parse with
  | .error _ => (.err 400 ["Invalid JSON format."], false)
  | .ok nameField =>
    let n := nameField.getD ""
    if n = "" then
      (.err 400 ["JSON body must contain a \x27name\x27 key."], false)
    else
      match backend n with
      | .success (code, b) => (.relay code b, true)
      | .httpError code respBody message =>
          (.err code ["User service error: " ++ respBody.getD message], true)
      | .exc => (.err 500 ["An internal server error occurred."], true)

/-- A row of the `users` table. -/
structure UserRow where
  id : Int
  name : String
  created_at : Int
  updated_at : Int
  deriving DecidableEq, Repr

/-- The comparison behind `ORDER BY created_at DESC`. -/
def createdDesc (a b : UserRow) : Prop :=
  b.created_at ≤ a.created_at

instance : DecidableRel createdDesc :=
  fun a b => inferInstanceAs (Decidable (b.created_at ≤ a.created_at))

instance : IsTotal UserRow createdDesc :=
  ⟨fun a b => le_total b.created_at a.created_at⟩

instance : IsTrans UserRow createdDesc :=
  ⟨fun _ _ _ hab hbc => le_trans hbc hab⟩

/-- SQLite `OFFSET ?`: a negative offset behaves like 0, which is exactly
the clamping of `Int.toNat`. -/
def sqlOffset (off : Int) (xs : List UserRow) : List UserRow :=
  xs.drop off.toNat

/-- SQLite `LIMIT ?`: a negative limit means no limit. -/
def sqlLimit (lim : Int) (xs : List UserRow) : List UserRow :=
  if lim < 0 then xs else xs.take lim.toNat

/-- Responses of the user service handlers: `okUsers` is
`{"result": true, "users": ...}`, `okUser` is `{"result": true, "user": ...}`
with its status code, `err` the `write_error` envelope. -/
inductive SvcResp where
  | okUsers (users : List UserRow)
  | okUser (status : Nat) (user : UserRow)
  | err (status : Nat) (errors : List String)
  deriving DecidableEq, Repr

/-- Embedding of `UsersHandler.get` after `page_num`/`page_size` parsed. -/
def usersGet (db : List UserRow) (page_num page_size : Int) : SvcResp :=
  let limit := page_size
  let offset := (page_num - 1) * page_size
  .okUsers (sqlLimit limit (sqlOffset offset (List.insertionSort createdDesc db)))

/-- The user-service database: the stored rows in insertion order plus the
next AUTOINCREMENT id. -/
structure UsersDB where
  rows : List UserRow
  nextId : Int
  deriving DecidableEq, Repr

/-- Embedding of `UsersHandler.post`: `nameField` is
`self.get_argument("name", None)` (the empty string is falsy, like `None`),
`time_now` the captured clock value `int(time.time() * 1e6)`; both
`created_at` and `updated_at` of the inserted row are set to it. -/
def usersPost (db : UsersDB) (nameField : Option String) (time_now : Int) :
    UsersDB × SvcResp :=
  if nameField.getD "" = "" then
    (db, .err 400 ["name parameter is required."])
  else
    let row : UserRow := ⟨db.nextId, nameField.getD "", time_now, time_now⟩
    ({ rows := db.rows ++ [row], nextId := db.nextId + 1 }, .okUser 201 row)

/-- Embedding of `UserHandler.get` after the id parsed. -/
def userGetById (db : UsersDB) (uid : Int) : SvcResp :=
  match db.rows.find? (fun r => r.id == uid) with
  | some r => .okUser 200 r
  | none => .err 404 ["User with id " ++ toString uid ++ " not found."]

/-- The operations that mutate the user-service database: only
`POST /users`. -/
inductive UserOp where
  | post (nameField : Option String) (time_now : Int)
  deriving DecidableEq, Repr

/-- Run a sequence of operations against the freshly initialised database
(empty table, AUTOINCREMENT starting at 1). -/
def runOps (ops : List UserOp) : UsersDB :=
  ops.foldl (fun db op => match op with | .post n t => (usersPost db n t).1)
    ⟨[], 1⟩

/-! ### Properties of the merge map -/

lemma mapGet_nil (k : Int) : mapGet [] k = none := rfl

lemma mapGet_insertRes_success (u : UserRecord) (m : List (Int × UserRecord))
    (k : Int) :
    mapGet (insertRes (.success (some u)) m) k =
      if u.id == k then some u else mapGet m k := by
  by_cases h : u.id == k
  · simp [insertRes, mapGet, List.find?, h]
  · simp only [insertRes, mapGet, List.find?]
    rw [if_neg h]
    simp [h]

lemma mapGet_insertRes_skip (res : LookupResult) (m : List (Int × UserRecord))
    (k : Int) (h : ∀ u, res ≠ .success (some u)) :
    mapGet (insertRes res m) k = mapGet m k := by
  cases res with
  | success body =>
    cases body with
    | none => rfl
    | some u => exact absurd rfl (h u)
  | httpError code b msg => rfl
  | exc => rfl

lemma mapGet_buildMapAux (ids : List Int) (lookup : Int → LookupResult)
    (m : List (Int × UserRecord)) (k : Int) :
    mapGet (buildMapAux m ids lookup) k =
      match findLastBody ids lookup k with
      | some u => some u
      | none => mapGet m k := by
  induction ids generalizing m with
  | nil => simp [buildMapAux, findLastBody]
  | cons uid rest ih =>
    simp only [buildMapAux, findLastBody]
    rw [ih]
    cases hrest : findLastBody rest lookup k with
    | some u => rfl
    | none =>
      cases hl : lookup uid with
      | success body =>
        cases body with
        | none => simp [mapGet_insertRes_skip]
        | some u =>
          rw [mapGet_insertRes_success]
          by_cases hu : u.id == k
          · simp [hu]
          · simp [hu]
      | httpError code b msg => simp [mapGet_insertRes_skip]
      | exc => simp [mapGet_insertRes_skip]

lemma mapGet_buildMapAux_nil (ids : List Int) (lookup : Int → LookupResult)
    (k : Int) :
    mapGet (buildMapAux [] ids lookup) k = findLastBody ids lookup k := by
  rw [mapGet_buildMapAux]
  cases findLastBody ids lookup k <;> rfl

lemma findLastBody_eq_none_iff (ids : List Int) (lookup : Int → LookupResult)
    (k : Int) :
    findLastBody ids lookup k = none ↔
      ∀ uid ∈ ids, ∀ u, lookup uid = .success (some u) → u.id ≠ k := by
  induction ids with
  | nil => simp [findLastBody]
  | cons uid rest ih =>
    simp only [findLastBody]
    cases hrest : findLastBody rest lookup k with
    | some u =>
      simp only [reduceCtorEq, false_iff]
      intro hall
      have : findLastBody rest lookup k = none := by
        rw [ih]
        intro v hv w hw
        exact hall v (List.mem_cons_of_mem _ hv) w hw
      rw [this] at hrest
      exact Option.noConfusion hrest
    | none =>
      have hrest' := ih.mp hrest
      constructor
      · intro h v hv u hu hid
        rcases List.mem_cons.mp hv with hv1 | hv2
        · subst hv1
          rw [hu] at h
          simp [hid] at h
        · exact hrest' v hv2 u hu hid
      · intro hall
        cases hl : lookup uid with
        | success body =>
          cases body with
          | none => rfl
          | some u =>
            have hne : u.id ≠ k := hall uid (List.mem_cons_self _ _) u hl
            simp [beq_eq_false_iff_ne.mpr hne]
        | httpError code b msg => rfl
        | exc => rfl

lemma findLastBody_some (ids : List Int) (lookup : Int → LookupResult)
    (k : Int) (u : UserRecord) (h : findLastBody ids lookup k = some u) :
    u.id = k ∧ ∃ uid ∈ ids, lookup uid = .success (some u) := by
  induction ids with
  | nil => exact Option.noConfusion h
  | cons uid rest ih =>
    simp only [findLastBody] at h
    cases hrest : findLastBody rest lookup k with
    | some w =>
      rw [hrest] at h
      obtain rfl : w = u := Option.some.injEq _ _ ▸ h
      obtain ⟨hid, v, hv, hl⟩ := ih hrest
      exact ⟨hid, v, List.mem_cons_of_mem _ hv, hl⟩
    | none =>
      rw [hrest] at h
      cases hl : lookup uid with
      | success body =>
        cases body with
        | none => rw [hl] at h; exact Option.noConfusion h
        | some w =>
          rw [hl] at h
          by_cases hw : w.id == k
          · have h' : w = u := by simpa [hw] using h
            subst h'
            exact ⟨beq_iff_eq.mp hw, uid, List.mem_cons_self _ _, hl⟩
          · simp [hw] at h
      | httpError code b msg => rw [hl] at h; exact Option.noConfusion h
      | exc => rw [hl] at h; exact Option.noConfusion h

/-- The success path of `getListings` in closed form: the response is always
`ok`, each listing is enriched with the merge-map entry for its `user_id`,
and the fan-out is exactly the distinct ids of the page. -/
lemma getListings_success_eq {α : Type}
    (data : Option (List (ListingIn α))) (lookup : Int → LookupResult) :
    getListings (.success data) lookup =
      (.ok ((data.getD []).map (fun l =>
          ⟨findLastBody (pageIds (data.getD [])) lookup l.user_id, l.rest⟩)),
       pageIds (data.getD [])) := by
  simp only [getListings]
  cases hL : (data.getD []).isEmpty with
  | true =>
    have : data.getD [] = [] := List.isEmpty_iff.mp hL
    simp [this, pageIds, List.dedup_nil]
  | false =>
    simp only [hL, Bool.false_eq_true, if_false, mapGet_buildMapAux_nil]

/-! ### Claim theorems -/

/-- C2: the set of user ids the gateway looks up is exactly the set of
distinct `user_id` values of the returned listings page: the fan-out list
has no duplicates, and an id is fanned out iff some listing of the page
carries it. -/
theorem spec_c2 {α : Type} (data : Option (List (ListingIn α)))
    (lookup : Int → LookupResult) :
    ((getListings (.success data) lookup).2).Nodup ∧
    ∀ uid : Int, uid ∈ (getListings (.success data) lookup).2 ↔
      ∃ l ∈ data.getD [], l.user_id = uid := by
  rw [getListings_success_eq]
  refine ⟨List.nodup_dedup _, fun uid => ?_⟩
  simp [pageIds, List.mem_dedup, List.mem_map]

/-- C3: a successful `getListings` request returns `ok` with a listings
array of the same length and order as the backend page, each element keeping
every field other than `user_id`/`user` unchanged (the `rest` component),
for every possible outcome of the user lookups. -/
theorem spec_c3 {α : Type} (L : List (ListingIn α))
    (lookup : Int → LookupResult) :
    ∃ out, (getListings (.success (some L)) lookup).1 = .ok out ∧
      out.length = L.length ∧
      List.Forall₂ (fun li lo => lo.rest = li.rest) L out := by
  have h := getListings_success_eq (some L) lookup
  simp only [Option.getD_some] at h
  rw [h]
  refine ⟨_, rfl, by simp, ?_⟩
  rw [List.forall₂_map_right_iff]
  exact List.forall₂_same.mpr (fun x _ => rfl)

/-- C4: an empty listings page (including a body without a `listings` key)
yields `{result: true, listings: []}` with zero user-backend lookups. -/
theorem spec_c4 {α : Type} (lookup : Int → LookupResult) :
    getListings (α := α) (.success (some [])) lookup = (.ok [], []) ∧
    getListings (α := α) (.success none) lookup = (.ok [], []) :=
  ⟨rfl, rfl⟩

/-- C5: a primary listings fetch failing with upstream non-2xx status `S`
yields the error envelope with status `S`, a single message wrapping the
upstream body, and no user fan-out. -/
theorem spec_c5 {α : Type} (S : Nat) (body msg : String)
    (lookup : Int → LookupResult) (hS : S < 200 ∨ 300 ≤ S) :
    getListings (α := α) (.httpError S (some body) msg) lookup
      = (.err S ["Upstream service error: " ++ body], []) := rfl

theorem spec_c5_witness :
    ((503 : Nat) < 200 ∨ 300 ≤ (503 : Nat)) ∧
    getListings (α := Unit) (.httpError 503 (some "oops") "m") (fun _ => .exc)
      = (.err 503 ["Upstream service error: " ++ "oops"], []) :=
  ⟨by decide, spec_c5 503 "oops" "m" (fun _ => .exc) (by decide)⟩

/-- C6 counterexample: a primary-call transport fault that surfaces as a
non-`HTTPClientError` exception is answered with status 500 and the generic
internal-error message, not with a 502-class "upstream unreachable"
envelope. -/
theorem spec_c6_counterexample :
    (getListings (α := Unit) .exc (fun _ => .exc)).1
      = .err 500 ["An internal server error occurred."] ∧ (500 : Nat) ≠ 502 :=
  ⟨rfl, by decide⟩

/-- C6 amended: a primary call (listings fetch or passthrough create) that
fails with a transport-level fault surfacing as a generic exception is
answered with status 500 and the fixed message
"An internal server error occurred.", which exposes no internal stack
detail. -/
theorem spec_c6_amended {α φ γ : Type} (lookup : Int → LookupResult)
    (body : φ) :
    getListings (α := α) .exc lookup
      = (.err 500 ["An internal server error occurred."], []) ∧
    createListing (γ := γ) (.ok body) (fun _ => .exc)
      = .err 500 ["An internal server error occurred."] ∧
    createUser (γ := γ) (.ok (some "bob")) (fun _ => .exc)
      = (.err 500 ["An internal server error occurred."], true) := by
  refine ⟨rfl, rfl, ?_⟩
  simp [createUser]

/-- C7: a `POST /public-api/users` body whose `name` is missing or falsy is
rejected locally with status 400 and a field-specific message, and the user
backend is not contacted. -/
theorem spec_c7 {γ : Type} (nameField : Option String)
    (backend : String → FetchResult (Nat × γ))
    (h : nameField.getD "" = "") :
    createUser (.ok nameField) backend
      = (.err 400 ["JSON body must contain a \x27name\x27 key."], false) := by
  simp [createUser, h]

theorem spec_c7_witness :
    ((none : Option String).getD "" = "") ∧
    createUser (γ := Unit) (.ok none) (fun _ => .exc)
      = (.err 400 ["JSON body must contain a \x27name\x27 key."], false) :=
  ⟨rfl, spec_c7 none (fun _ => .exc) rfl⟩

/-- C1: with the primary fetch succeeded, lookups answering either a failure
or the queried user's own record (the user-backend contract for
`GET /users/{id}`), and at least one lookup failed, the gateway still
answers `ok` with every listing of the page, and a listing carries
`user = none` exactly when the lookup of its `user_id` failed: per-item
failures are never escalated. -/
theorem spec_c1 {α : Type} (L : List (ListingIn α))
    (lookup : Int → LookupResult)
    (hkey : ∀ uid ∈ pageIds L, ∀ u, lookup uid = .success (some u) → u.id = uid)
    (hne : ∀ uid ∈ pageIds L, lookup uid ≠ .success none)
    (hfail : ∃ uid ∈ pageIds L, lookupFailed (lookup uid) = true) :
    ∃ out, (getListings (.success (some L)) lookup).1 = .ok out ∧
      out.length = L.length ∧
      List.Forall₂ (fun li lo =>
        lo.user = none ↔ lookupFailed (lookup li.user_id) = true) L out := by
  have h := getListings_success_eq (some L) lookup
  simp only [Option.getD_some] at h
  rw [h]
  refine ⟨_, rfl, by simp, ?_⟩
  rw [List.forall₂_map_right_iff]
  refine List.forall₂_same.mpr (fun l hl => ?_)
  have hmem : l.user_id ∈ pageIds L :=
    List.mem_dedup.mpr (List.mem_map.mpr ⟨l, hl, rfl⟩)
  show findLastBody (pageIds L) lookup l.user_id = none ↔
    lookupFailed (lookup l.user_id) = true
  constructor
  · intro hnone
    cases hlk : lookup l.user_id with
    | success b =>
      cases b with
      | none => exact absurd hlk (hne _ hmem)
      | some u =>
        have hid : u.id = l.user_id := hkey _ hmem u hlk
        exact absurd hid
          ((findLastBody_eq_none_iff (pageIds L) lookup l.user_id).mp hnone
            _ hmem u hlk)
    | httpError c b m => simp [lookupFailed]
    | exc => simp [lookupFailed]
  · intro hf
    rw [findLastBody_eq_none_iff]
    intro v hv u hu hid
    have hidv : u.id = v := hkey v hv u hu
    have hvl : v = l.user_id := by rw [← hidv, hid]
    rw [hvl] at hu
    rw [hu] at hf
    simp [lookupFailed] at hf

/-- The page used by the C1 witness. -/
def c1L : List (ListingIn Unit) := [⟨1, ()⟩, ⟨2, ()⟩]

/-- The lookup outcomes used by the C1 witness: id 1 resolves, id 2 fails
with a 404 `HTTPClientError`. -/
def c1lookup : Int → LookupResult := fun uid =>
  if uid = 1 then .success (some ⟨1, "a"⟩) else .httpError 404 (some "nf") "m"

theorem spec_c1_witness :
    (∀ uid ∈ pageIds c1L, ∀ u, c1lookup uid = .success (some u) → u.id = uid) ∧
    (∀ uid ∈ pageIds c1L, c1lookup uid ≠ .success none) ∧
    (∃ uid ∈ pageIds c1L, lookupFailed (c1lookup uid) = true) ∧
    (∃ out, (getListings (.success (some c1L)) c1lookup).1 = .ok out ∧
      out.length = c1L.length ∧
      List.Forall₂ (fun li lo =>
        lo.user = none ↔ lookupFailed (c1lookup li.user_id) = true) c1L out) := by
  have hkey : ∀ uid ∈ pageIds c1L, ∀ u,
      c1lookup uid = .success (some u) → u.id = uid := by
    intro uid _ u h
    by_cases h1 : uid = 1
    · subst h1
      simp only [c1lookup, if_pos rfl] at h
      obtain rfl : (⟨1, "a"⟩ : UserRecord) = u := by
        injection h with h'
        injection h'
      rfl
    · simp [c1lookup, h1] at h
  have hne : ∀ uid ∈ pageIds c1L, c1lookup uid ≠ .success none := by
    intro uid _
    by_cases h1 : uid = 1 <;> simp [c1lookup, h1]
  have hfail : ∃ uid ∈ pageIds c1L, lookupFailed (c1lookup uid) = true :=
    ⟨2, by decide, by decide⟩
  exact ⟨hkey, hne, hfail, spec_c1 c1L c1lookup hkey hne hfail⟩

/-- C10: a lookup answering 2xx with a falsy `user` body is absorbed like a
failed one — the request still answers `ok` and, provided no success body
carries that id, every listing owned by the id gets `user = none`; and the
merge map is keyed by the `id` field inside the response body: any success
body `u` (wherever the query was aimed) serves exactly the listings whose
`user_id` equals `u.id`. -/
theorem spec_c10 {α : Type} (L : List (ListingIn α))
    (lookup : Int → LookupResult) (uid : Int)
    (hmem : uid ∈ pageIds L)
    (hempty : lookup uid = .success none)
    (hnocross : ∀ v ∈ pageIds L, ∀ u, lookup v = .success (some u) → u.id ≠ uid) :
    ∃ out, (getListings (.success (some L)) lookup).1 = .ok out ∧
      List.Forall₂ (fun li lo => li.user_id = uid → lo.user = none) L out ∧
      ∀ v ∈ pageIds L, ∀ u, lookup v = .success (some u) →
        List.Forall₂ (fun li lo =>
          li.user_id = u.id → ∃ w, lo.user = some w ∧ w.id = u.id) L out := by
  have h := getListings_success_eq (some L) lookup
  simp only [Option.getD_some] at h
  rw [h]
  refine ⟨_, rfl, ?_, ?_⟩
  · rw [List.forall₂_map_right_iff]
    refine List.forall₂_same.mpr (fun l _ => ?_)
    intro hlu
    show findLastBody (pageIds L) lookup l.user_id = none
    rw [hlu, findLastBody_eq_none_iff]
    exact hnocross
  · intro v hv u hu
    rw [List.forall₂_map_right_iff]
    refine List.forall₂_same.mpr (fun l _ => ?_)
    intro hlu
    show ∃ w, findLastBody (pageIds L) lookup l.user_id = some w ∧ w.id = u.id
    rw [hlu]
    cases hfb : findLastBody (pageIds L) lookup u.id with
    | none =>
      exact absurd rfl
        ((findLastBody_eq_none_iff (pageIds L) lookup u.id).mp hfb v hv u hu)
    | some w =>
      exact ⟨w, rfl, (findLastBody_some _ _ _ _ hfb).1⟩

/-- The page used by the C10 witness. -/
def c10L : List (ListingIn Unit) := [⟨5, ()⟩]

theorem spec_c10_witness :
    ((5 : Int) ∈ pageIds c10L) ∧
    ((fun _ : Int => (.success none : LookupResult)) 5 = .success none) ∧
    (∀ v ∈ pageIds c10L, ∀ u,
      (fun _ : Int => (.success none : LookupResult)) v = .success (some u) →
        u.id ≠ 5) ∧
    (∃ out, (getListings (.success (some c10L))
        (fun _ => (.success none : LookupResult))).1 = .ok out ∧
      List.Forall₂ (fun li lo => li.user_id = 5 → lo.user = none) c10L out ∧
      ∀ v ∈ pageIds c10L, ∀ u,
        (fun _ : Int => (.success none : LookupResult)) v = .success (some u) →
          List.Forall₂ (fun li lo =>
            li.user_id = u.id → ∃ w, lo.user = some w ∧ w.id = u.id) c10L out) := by
  have hmem : (5 : Int) ∈ pageIds c10L := by decide
  have hempty : (fun _ : Int => (.success none : LookupResult)) 5
      = .success none := rfl
  have hnocross : ∀ v ∈ pageIds c10L, ∀ u,
      (fun _ : Int => (.success none : LookupResult)) v = .success (some u) →
        u.id ≠ 5 := by
    intro v _ u h
    simp at h
  exact ⟨hmem, hempty, hnocross,
    spec_c10 c10L (fun _ => .success none) 5 hmem hempty hnocross⟩

/-- C8: `GET /users` with a positive page number and a nonnegative page size
returns a prefix-window of an ordering of the whole table by `created_at`
descending: there is a permutation `sorted` of the stored rows, sorted
newest-first, such that the page is `take page_size` of
`drop ((page_num - 1) * page_size)` of it, hence at most `page_size` rows. -/
theorem spec_c8 (db : List UserRow) (pn ps : Int)
    (h1 : 1 ≤ pn) (h2 : 0 ≤ ps) :
    ∃ users sorted, usersGet db pn ps = .okUsers users ∧
      sorted.Perm db ∧ List.Sorted createdDesc sorted ∧
      users = (sorted.drop ((pn - 1) * ps).toNat).take ps.toNat ∧
      (users.length : Int) ≤ ps := by
  refine ⟨_, List.insertionSort createdDesc db, rfl,
    List.perm_insertionSort _ _, List.sorted_insertionSort _ _, ?_, ?_⟩
  · simp [sqlLimit, sqlOffset, if_neg (not_lt.mpr h2)]
  · simp only [sqlLimit, sqlOffset, if_neg (not_lt.mpr h2), List.length_take]
    omega

theorem spec_c8_witness :
    (1 ≤ (1 : Int)) ∧ (0 ≤ (1 : Int)) ∧
    (∃ users sorted,
      usersGet [⟨1, "a", 10, 10⟩, ⟨2, "b", 20, 20⟩] 1 1 = .okUsers users ∧
      sorted.Perm [⟨1, "a", 10, 10⟩, ⟨2, "b", 20, 20⟩] ∧
      List.Sorted createdDesc sorted ∧
      users = (sorted.drop (((1 : Int) - 1) * 1).toNat).take (1 : Int).toNat ∧
      (users.length : Int) ≤ 1) :=
  ⟨by decide, by decide,
    spec_c8 [⟨1, "a", 10, 10⟩, ⟨2, "b", 20, 20⟩] 1 1 (by decide) (by decide)⟩

/-- `usersPost` keeps the row invariant `created_at = updated_at`: a
rejected request leaves the table unchanged, an accepted one appends a row
with both timestamps set to the same captured clock value. -/
lemma usersPost_preserves (db : UsersDB) (n : Option String) (t : Int)
    (h : ∀ r ∈ db.rows, r.created_at = r.updated_at) :
    ∀ r ∈ (usersPost db n t).1.rows, r.created_at = r.updated_at := by
  intro r hr
  by_cases hn : n.getD "" = ""
  · simp only [usersPost, if_pos hn] at hr
    exact h r hr
  · simp only [usersPost, if_neg hn, List.mem_append,
      List.mem_singleton] at hr
    rcases hr with hr | hr
    · exact h r hr
    · subst hr; rfl

/-- Every database reachable from the freshly initialised one satisfies the
row invariant `created_at = updated_at`. -/
lemma runOps_invariant (ops : List UserOp) :
    ∀ r ∈ (runOps ops).rows, r.created_at = r.updated_at := by
  suffices h : ∀ db : UsersDB, (∀ r ∈ db.rows, r.created_at = r.updated_at) →
      ∀ r ∈ (ops.foldl
          (fun db op => match op with | .post n t => (usersPost db n t).1)
          db).rows,
        r.created_at = r.updated_at by
    exact h ⟨[], 1⟩ (by simp)
  induction ops with
  | nil => intro db hdb; exact hdb
  | cons op rest ih =>
    intro db hdb
    cases op with
    | post n t =>
      exact ih _ (usersPost_preserves db n t hdb)

/-- C9: every user record created via `POST /users` has
`created_at = updated_at`, and since no operation mutates existing rows the
invariant holds for every stored row, hence for every user returned by
`GET /users/{id}` or by `GET /users`. -/
theorem spec_c9 (ops : List UserOp) :
    (∀ r ∈ (runOps ops).rows, r.created_at = r.updated_at) ∧
    (∀ uid s u, userGetById (runOps ops) uid = .okUser s u →
      u.created_at = u.updated_at) ∧
    (∀ pn ps users, usersGet (runOps ops).rows pn ps = .okUsers users →
      ∀ u ∈ users, u.created_at = u.updated_at) := by
  have hinv := runOps_invariant ops
  refine ⟨hinv, ?_, ?_⟩
  · intro uid s u h
    unfold userGetById at h
    cases hf : (runOps ops).rows.find? (fun r => r.id == uid) with
    | none => rw [hf] at h; exact SvcResp.noConfusion h
    | some r =>
      rw [hf] at h
      injection h with _ h2
      subst h2
      exact hinv r (List.mem_of_find?_eq_some hf)
  · intro pn ps users h u hu
    unfold usersGet at h
    injection h with h'
    rw [← h'] at hu
    have h3 : u ∈ List.insertionSort createdDesc (runOps ops).rows := by
      by_cases hlim : ps < 0
      · simp only [sqlLimit, if_pos hlim, sqlOffset] at hu
        exact List.drop_subset _ _ hu
      · simp only [sqlLimit, if_neg hlim, sqlOffset] at hu
        exact List.drop_subset _ _ (List.take_subset _ _ hu)
    exact hinv u ((List.perm_insertionSort createdDesc _).mem_iff.mp h3)

theorem spec_c9_witness :
    (⟨1, "a", 5, 5⟩ : UserRow) ∈ (runOps [.post (some "a") 5]).rows ∧
    (⟨1, "a", 5, 5⟩ : UserRow).created_at
      = (⟨1, "a", 5, 5⟩ : UserRow).updated_at := by
  have hm : (⟨1, "a", 5, 5⟩ : UserRow) ∈ (runOps [.post (some "a") 5]).rows := by
    decide
  exact ⟨hm, (spec_c9 [.post (some "a") 5]).1 _ hm⟩
